import Mathlib

/-!
Shallow embedding of lib/reaper-stream.js from triton-cns: the ReaperFSM
mooremachine state machine behind ReaperStream.  Each state handler of the
source is embedded as a pure function from the machine fields and the
outcome of the asynchronous operations awaited during that state visit to
the successor state, the updated machine fields, and the list of external
effects (redis reads and mutations, VMAPI fetches, stream pushes) the
visit performs.  Logging and the lastError bookkeeping are omitted; timer
durations are abstracted into the events that fire them.  JS numbers that
take fractional values (the sleep throttle and reapTime) are embedded as
rationals; unix timestamps as integers.
-/

namespace ReaperModel

/-- A VM object as delivered by VMAPI (after cleanVM) and pushed into the
downstream stream.  Only the fields that the reaper inspects are kept:
the state string, the destroyed flag, and the origin tag that
ReaperFSM.prototype.fetch stamps on every object it returns. -/
structure VMObj where
  state : String
  destroyed : Bool
  origin : String
deriving DecidableEq

/-- ReaperFSM.prototype.fetch: the callback receives the VMAPI object with
obj.origin set to "reaper". -/
def fetchResult (obj : VMObj) : VMObj :=
  { obj with origin := "reaper" }

/-- The terminal-condition test of state_fetchAndPush:
obj.state === "destroyed" or obj.destroyed or obj.state === "failed" or
obj.state === "incomplete". -/
def isTerminal (obj : VMObj) : Bool :=
  obj.state == "destroyed" || obj.destroyed || obj.state == "failed" ||
    obj.state == "incomplete"

/-- The mutable fields of a ReaperFSM instance, as initialised in the
constructor and mutated by the state handlers. -/
structure ReaperFSM where
  remaining : List String
  vmuuid : String
  retries : Int
  onTimer : Bool
  minSleep : ℚ
  sleep : ℚ
  maxSleep : ℚ
  reapTime : ℚ
  listCursor : String
deriving DecidableEq

/-- The constructor field values of ReaperFSM (vmuuid starts undefined in
JS; the string coercion used when building redis keys renders it as
"undefined"). -/
def initFSM : ReaperFSM :=
  { remaining := []
    vmuuid := "undefined"
    retries := 3
    onTimer := false
    minSleep := 100
    sleep := 100
    maxSleep := 10000
    reapTime := 3600
    listCursor := "0" }

/-- The mooremachine state names of ReaperFSM. -/
inductive StateName
  | idle
  | listVms
  | listError
  | next
  | checkLastVisited
  | checkReaped
  | fetchAndPush
  | sleep_full
  | sleep
  | checkError
deriving DecidableEq

/-- Observable external effects of one state visit: a redis SCAN page, a
redis HGET read, the mutations HSET and DEL, a VMAPI fetch, and a push of
a VM object into the downstream stream. -/
inductive Effect
  | scan (cursor : String)
  | hget (key field : String)
  | hset (key field value : String)
  | del (key : String)
  | fetch (uuid : String)
  | push (obj : VMObj)
deriving DecidableEq

/-- The result of one state visit: the state passed to S.gotoState, the
updated machine fields, and the effects performed during the visit. -/
structure StepResult where
  goto : StateName
  fsm : ReaperFSM
  effects : List Effect
deriving DecidableEq

/-- Outcome of the redis scan awaited in state_listVms: the 10s timeout,
an error, or a reply carrying the next cursor and the page of keys. -/
inductive ListVmsInput
  | timeout
  | err
  | ok (cursor : String) (keys : List String)
deriving DecidableEq

/-- Outcome of the last_visit HGET awaited in state_checkLastVisited: the
1s timeout, an error, or a reply (with the wall clock value now computed
inside the callback, in unix seconds). -/
inductive CheckLVInput
  | timeout
  | err
  | ok (now : Int) (val : Option String)
deriving DecidableEq

/-- Outcome of the reads performed by state_checkReaped.  The entry
timeout can fire while waiting for either HGET; the first read (reaped)
can error or return null or a value; when it returns a value, the second
read (last_recs) can error or return val2. -/
inductive CheckReapedInput
  | timeoutFirst
  | errFirst
  | okNotReaped
  | reapedTimeoutSecond
  | reapedErrSecond
  | reapedOk (val2 : Option String)
deriving DecidableEq

/-- Outcome of the VMAPI fetch awaited in state_fetchAndPush: the 5s
timeout, a fetch error, or the fetched object together with the boolean
returned by stream.push. -/
inductive FetchInput
  | timeout
  | err
  | ok (obj : VMObj) (pushAccepted : Bool)
deriving DecidableEq

/-- Events observable in the two sleeping states: expiry of the sleep
timer, or an externally asserted wake signal. -/
inductive SleepInput
  | timerFired
  | wake
deriving DecidableEq

/-- parseInt(val, 10) as used on the last_visit value: skip leading
whitespace, an optional sign, then the leading run of decimal digits;
NaN (no digits) is modelled as none. -/
def jsParseInt (s : String) : Option Int :=
  let cs := s.data.dropWhile Char.isWhitespace
  let signDigits : Bool × List Char :=
    match cs with
    | '-' :: rest => (true, rest)
    | '+' :: rest => (false, rest)
    | _ => (false, cs)
  let ds := signDigits.2.takeWhile Char.isDigit
  if ds = [] then none
  else
    let n : Nat := ds.foldl (fun a c => a * 10 + (c.toNat - 48)) 0
    some (if signDigits.1 then -(n : Int) else (n : Int))

/-- Helper for splitChar: walks the character list, cutting a new piece
at every occurrence of the separator. -/
def splitCharAux (c : Char) : List Char → List Char → List String
  | [], acc => [String.mk acc.reverse]
  | x :: xs, acc =>
      if x = c then String.mk acc.reverse :: splitCharAux c xs []
      else splitCharAux c xs (x :: acc)

/-- JS String.prototype.split with a one-character separator: every
occurrence cuts a piece, so "a::b" gives ["a", "", "b"] and "" gives
[""]. -/
def splitChar (c : Char) (s : String) : List String :=
  splitCharAux c s.data []

/-- The key filter of state_listVms: keys[i].split(":") must have exactly
two parts with the first equal to "vm"; the second part is the uuid
pushed onto the worklist. -/
def vmKeyId (k : String) : Option String :=
  match splitChar ':' k with
  | [p, id] => if p = "vm" then some id else none
  | _ => none

/-- state_idle: entry resets listCursor to "0"; both the startAsserted
event and (when onTimer) the reapTime timer go to listVms. -/
def state_idle (fsm : ReaperFSM) : StepResult :=
  ⟨.listVms, { fsm with listCursor := "0" }, []⟩

/-- state_listVms: issues one SCAN page from listCursor.  On timeout or
error it goes to listError; on a reply it stores the returned cursor,
appends the ids of well-formed vm:* keys to the worklist, and loops to
listVms unless the cursor is exhausted ("0"), in which case it goes to
next. -/
def state_listVms (fsm : ReaperFSM) (inp : ListVmsInput) : StepResult :=
  let effs := [Effect.scan fsm.listCursor]
  match inp with
  | .timeout => ⟨.listError, fsm, effs⟩
  | .err => ⟨.listError, fsm, effs⟩
  | .ok cursor keys =>
      let ids := keys.filterMap vmKeyId
      ⟨if cursor = "0" then .next else .listVms,
       { fsm with listCursor := cursor, remaining := fsm.remaining ++ ids },
       effs⟩

/-- state_listError: entry resets listCursor to "0"; after the 1s timer
it retries listVms.  The worklist is left untouched. -/
def state_listError (fsm : ReaperFSM) : StepResult :=
  ⟨.listVms, { fsm with listCursor := "0" }, []⟩

/-- state_next: entry resets retries to 3; if the worklist is non-empty
it shifts the next uuid and goes to checkLastVisited, else the cycle is
complete and it goes to idle. -/
def state_next (fsm : ReaperFSM) : StepResult :=
  let fsm2 := { fsm with retries := (3 : Int) }
  match fsm2.remaining with
  | u :: rest => ⟨.checkLastVisited, { fsm2 with vmuuid := u, remaining := rest }, []⟩
  | [] => ⟨.idle, fsm2, []⟩

/-- state_checkLastVisited: HGETs last_visit for the current vm.  Timeout
or error go to checkError; a null value skips to next; otherwise the
value is parsed with parseInt and the vm is reaped (checkReaped) exactly
when now minus lastVisited exceeds reapTime, else next.  A NaN parse
makes the comparison false, hence next. -/
def state_checkLastVisited (fsm : ReaperFSM) (inp : CheckLVInput) : StepResult :=
  let key := "vm:" ++ fsm.vmuuid
  let effs := [Effect.hget key "last_visit"]
  match inp with
  | .timeout => ⟨.checkError, fsm, effs⟩
  | .err => ⟨.checkError, fsm, effs⟩
  | .ok now val =>
      ⟨match val with
        | none => .next
        | some s =>
            match jsParseInt s with
            | none => .next
            | some lastVisited =>
                if (((now - lastVisited : Int) : ℚ) > fsm.reapTime)
                  then .checkReaped else .next,
       fsm, effs⟩

/-- state_checkReaped: HGETs reaped for the current vm.  Timeout or an
error on this first read go to checkError.  A null reply means the vm was
not yet reaped: fetchAndPush.  A non-null reply triggers a second HGET of
last_recs; if that read errors, or returns null or the empty object
"\x7b\x7d", the whole record is DELeted and the machine goes to next;
otherwise (non-empty last_recs) it goes to fetchAndPush; a timeout while
awaiting the second read still goes to checkError. -/
def state_checkReaped (fsm : ReaperFSM) (inp : CheckReapedInput) : StepResult :=
  let key := "vm:" ++ fsm.vmuuid
  let effs1 := [Effect.hget key "reaped"]
  match inp with
  | .timeoutFirst => ⟨.checkError, fsm, effs1⟩
  | .errFirst => ⟨.checkError, fsm, effs1⟩
  | .okNotReaped => ⟨.fetchAndPush, fsm, effs1⟩
  | .reapedTimeoutSecond => ⟨.checkError, fsm, effs1 ++ [Effect.hget key "last_recs"]⟩
  | .reapedErrSecond =>
      ⟨.next, fsm, effs1 ++ [Effect.hget key "last_recs", Effect.del key]⟩
  | .reapedOk val2 =>
      ⟨if val2 = none ∨ val2 = some "\x7b\x7d" then .next else .fetchAndPush,
       fsm,
       effs1 ++ [Effect.hget key "last_recs"] ++
         (if val2 = none ∨ val2 = some "\x7b\x7d" then [Effect.del key] else [])⟩

/-- state_fetchAndPush: fetches the vm from VMAPI.  Timeout or fetch
error go to checkError.  On success the decorated object is pushed into
the stream; if push returned false the machine goes to sleep_full with no
further action; otherwise, when the fetched state is terminal, reaped is
HSET to "yes" (fire and forget), and the machine goes to sleep. -/
def state_fetchAndPush (fsm : ReaperFSM) (inp : FetchInput) : StepResult :=
  let key := "vm:" ++ fsm.vmuuid
  match inp with
  | .timeout => ⟨.checkError, fsm, [Effect.fetch fsm.vmuuid]⟩
  | .err => ⟨.checkError, fsm, [Effect.fetch fsm.vmuuid]⟩
  | .ok obj accepted =>
      let pobj := fetchResult obj
      ⟨if accepted = false then .sleep_full else .sleep,
       fsm,
       [Effect.fetch fsm.vmuuid, Effect.push pobj] ++
         (if accepted = false then []
          else if isTerminal pobj then [Effect.hset key "reaped" "yes"] else [])⟩

/-- state_sleep_full: if the sleep timer expires with no wake, the sleep
interval is doubled, capped at maxSleep, and the machine goes to next; a
wake signal goes to next immediately with no throttle adjustment. -/
def state_sleep_full (fsm : ReaperFSM) (inp : SleepInput) : StepResult :=
  match inp with
  | .timerFired =>
      ⟨.next,
       { fsm with sleep :=
           if fsm.sleep * 2 > fsm.maxSleep then fsm.maxSleep else fsm.sleep * 2 },
       []⟩
  | .wake => ⟨.next, fsm, []⟩

/-- state_sleep: the machine always waits out its full sleep timer, then
goes to next; a wake signal only halves the sleep interval, floored at
minSleep, and does not leave the state. -/
def state_sleep (fsm : ReaperFSM) (inp : SleepInput) : StepResult :=
  match inp with
  | .timerFired => ⟨.next, fsm, []⟩
  | .wake =>
      ⟨.sleep,
       { fsm with sleep :=
           if fsm.sleep / 2 < fsm.minSleep then fsm.minSleep else fsm.sleep / 2 },
       []⟩

/-- state_checkError: entry decrements retries; while the result is still
positive the same vm is retried from checkLastVisited after the 1s timer,
otherwise the vm is skipped to next after the 5s timer. -/
def state_checkError (fsm : ReaperFSM) : StepResult :=
  let fsm2 := { fsm with retries := fsm.retries - 1 }
  ⟨if fsm2.retries > 0 then .checkLastVisited else .next, fsm2, []⟩

/-- The events that can be delivered to the machine: the external start
signal, the idle reap timer, a scan reply or failure, the listError retry
timer, the synchronous continuation of state next, the replies or
failures of the three per-vm operations, the sleep timer, the external
wake signal and the checkError retry timer. -/
inductive Event
  | startAsserted
  | reapTimer
  | scanResp (r : ListVmsInput)
  | listErrorTimer
  | nextStep
  | lastVisitedResp (r : CheckLVInput)
  | reapedResp (r : CheckReapedInput)
  | fetchResp (r : FetchInput)
  | sleepTimer
  | wakeAsserted
  | checkErrorTimer
deriving DecidableEq

/-- Dispatch of an event against the current state: none when the event
is not observed in that state (mooremachine handlers are registered per
state, so such an event is ignored).  The idle reap timer is armed only
when onTimer is set. -/
def step (st : StateName) (fsm : ReaperFSM) (ev : Event) : Option StepResult :=
  match st, ev with
  | .idle, .startAsserted => some (state_idle fsm)
  | .idle, .reapTimer => if fsm.onTimer then some (state_idle fsm) else none
  | .listVms, .scanResp r => some (state_listVms fsm r)
  | .listError, .listErrorTimer => some (state_listError fsm)
  | .next, .nextStep => some (state_next fsm)
  | .checkLastVisited, .lastVisitedResp r => some (state_checkLastVisited fsm r)
  | .checkReaped, .reapedResp r => some (state_checkReaped fsm r)
  | .fetchAndPush, .fetchResp r => some (state_fetchAndPush fsm r)
  | .sleep_full, .sleepTimer => some (state_sleep_full fsm SleepInput.timerFired)
  | .sleep_full, .wakeAsserted => some (state_sleep_full fsm SleepInput.wake)
  | .sleep, .sleepTimer => some (state_sleep fsm SleepInput.timerFired)
  | .sleep, .wakeAsserted => some (state_sleep fsm SleepInput.wake)
  | .checkError, .checkErrorTimer => some (state_checkError fsm)
  | _, _ => none

/-- Run the machine over a list of delivered events, ignoring events the
current state does not observe, collecting all effects in order. -/
def run (st : StateName) (fsm : ReaperFSM) (evs : List Event) :
    StateName × ReaperFSM × List Effect :=
  match evs with
  | [] => (st, fsm, [])
  | e :: rest =>
      match step st fsm e with
      | none => run st fsm rest
      | some r =>
          let rec' := run r.goto r.fsm rest
          (rec'.1, rec'.2.1, r.effects ++ rec'.2.2)

/-- ReaperStream.prototype.setReapTime: assert.ok(v > 0 and v < 24*3600)
models a raise as none; an accepted value is stored as the reapTime of
the FSM. -/
def setReapTime (fsm : ReaperFSM) (v : ℚ) : Option ReaperFSM :=
  if 0 < v ∧ v < 24 * 3600 then some { fsm with reapTime := v } else none

/-- Test for a fetch effect. -/
def isFetchEff : Effect → Bool
  | .fetch _ => true
  | _ => false

/-- Test for a push effect. -/
def isPushEff : Effect → Bool
  | .push _ => true
  | _ => false

/-- Number of VMAPI fetches in an effect list. -/
def countFetches (l : List Effect) : Nat := (l.filter isFetchEff).length

/-- Number of stream pushes in an effect list. -/
def countPushes (l : List Effect) : Nat := (l.filter isPushEff).length

/-- Events that do not start a new reap cycle: everything except the
external start signal and the idle reap timer, which are the only events
the idle state reacts to.  A trace of such events stays within the
current cycle. -/
def cycleEvent : Event → Bool
  | .startAsserted => false
  | .reapTimer => false
  | _ => true

/-- States of the per-resource processing phase of a cycle: every state
except the scanning states listVms and listError, which only run at the
start of a cycle before the worklist walk begins. -/
def procState : StateName → Bool
  | .listVms => false
  | .listError => false
  | _ => true

/-- States that perform no per-resource effect themselves and hand the
current vm over only through state next, which re-reads vmuuid from the
worklist. -/
def quietState : StateName → Bool
  | .next => true
  | .sleep_full => true
  | .sleep => true
  | .idle => true
  | _ => false

/-- Whether an effect reads, mutates or fetches the resource with id a:
the record key of a is "vm:" ++ a and its fetch carries the id itself;
pushes and scans target no single record. -/
def touchesVm (a : String) : Effect → Bool
  | .scan _ => false
  | .hget key _ => key == "vm:" ++ a
  | .hset key _ _ => key == "vm:" ++ a
  | .del key => key == "vm:" ++ a
  | .fetch uuid => uuid == a
  | .push _ => false

/-- Claim C3, counterexample: with a concrete machine inspecting vm "b",
an error on the second read (last_recs) does NOT transition to checkError
as the claim states: it goes to next and DELetes the record of the vm. -/
theorem claim_C3_cex :
    (state_checkReaped { initFSM with vmuuid := "b" }
        CheckReapedInput.reapedErrSecond).goto = StateName.next
    ∧ ¬ ((state_checkReaped { initFSM with vmuuid := "b" }
        CheckReapedInput.reapedErrSecond).goto = StateName.checkError)
    ∧ Effect.del "vm:b" ∈ (state_checkReaped { initFSM with vmuuid := "b" }
        CheckReapedInput.reapedErrSecond).effects := by decide

/-- Claim C3, amended: in checkReaped, an error or a timeout on the first
read (reaped) and a timeout while awaiting the second read (last_recs)
transition to checkError with no deletion; an error on the second read,
however, deletes the record of the resource and transitions to next. -/
theorem claim_C3_thm (fsm : ReaperFSM) :
    state_checkReaped fsm CheckReapedInput.timeoutFirst
      = ⟨StateName.checkError, fsm, [Effect.hget ("vm:" ++ fsm.vmuuid) "reaped"]⟩
    ∧ state_checkReaped fsm CheckReapedInput.errFirst
      = ⟨StateName.checkError, fsm, [Effect.hget ("vm:" ++ fsm.vmuuid) "reaped"]⟩
    ∧ state_checkReaped fsm CheckReapedInput.reapedTimeoutSecond
      = ⟨StateName.checkError, fsm,
         [Effect.hget ("vm:" ++ fsm.vmuuid) "reaped",
          Effect.hget ("vm:" ++ fsm.vmuuid) "last_recs"]⟩
    ∧ state_checkReaped fsm CheckReapedInput.reapedErrSecond
      = ⟨StateName.next, fsm,
         [Effect.hget ("vm:" ++ fsm.vmuuid) "reaped",
          Effect.hget ("vm:" ++ fsm.vmuuid) "last_recs",
          Effect.del ("vm:" ++ fsm.vmuuid)]⟩ :=
  ⟨rfl, rfl, rfl, rfl⟩

/-- Claim C7, counterexample: setReapTime accepts the value 1/2 second,
which does not lie between 1 second and 24 hours, so the claimed accepted
range is wrong. -/
theorem claim_C7_cex :
    (setReapTime initFSM (1 / 2)).isSome = true ∧ ¬ ((1 : ℚ) ≤ 1 / 2) := by
  constructor
  · norm_num [setReapTime]
  · norm_num

/-- Claim C7, amended: setReapTime accepts exactly the numeric values v
with 0 < v < 24*3600 (both bounds exclusive), storing accepted values as
the reapTime of the FSM, and raises on every other value. -/
theorem claim_C7_thm (fsm : ReaperFSM) (v : ℚ) :
    (setReapTime fsm v = some { fsm with reapTime := v } ↔ (0 < v ∧ v < 24 * 3600))
    ∧ (setReapTime fsm v = none ↔ ¬ (0 < v ∧ v < 24 * 3600)) := by
  by_cases h : 0 < v ∧ v < 24 * 3600 <;> simp [setReapTime, h]

/-- Claim C8: a wake signal during the non-full sleep state halves the
throttle, floored at minSleep, and stays in sleep (the state is left only
by its own timer, which goes to next with the throttle untouched); in
sleep_full a wake signal transitions to next immediately with no throttle
adjustment. -/
theorem claim_C8 (fsm : ReaperFSM) :
    (state_sleep fsm SleepInput.wake).goto = StateName.sleep
    ∧ (state_sleep fsm SleepInput.wake).fsm.sleep
        = (if fsm.sleep / 2 < fsm.minSleep then fsm.minSleep else fsm.sleep / 2)
    ∧ (state_sleep fsm SleepInput.timerFired).goto = StateName.next
    ∧ (state_sleep fsm SleepInput.timerFired).fsm = fsm
    ∧ (state_sleep_full fsm SleepInput.wake).goto = StateName.next
    ∧ (state_sleep_full fsm SleepInput.wake).fsm = fsm :=
  ⟨rfl, rfl, rfl, rfl, rfl, rfl⟩

/-- Record keys are injective in the vm id. -/
lemma vmKey_ne {x a : String} (h : ¬ (x = a)) : ¬ ("vm:" ++ x = "vm:" ++ a) := by
  intro he
  have hd : x.data = a.data := by simpa using congrArg String.data he
  exact h (String.ext hd)

/-- One valid cycle-internal step from a processing-phase state emits no
effect touching the record of an id absent from the worklist (and, unless
the state is quiet, different from the current vm), stays in the
processing phase, and preserves that invariant. -/
lemma step_no_retouch (a : String) (st : StateName) (fsm : ReaperFSM) (ev : Event)
    (r : StepResult) (hstep : step st fsm ev = some r)
    (hcyc : cycleEvent ev = true)
    (hproc : procState st = true)
    (hrem : a ∉ fsm.remaining)
    (hu : ¬ (fsm.vmuuid = a) ∨ quietState st = true) :
    procState r.goto = true ∧ a ∉ r.fsm.remaining
    ∧ (¬ (r.fsm.vmuuid = a) ∨ quietState r.goto = true)
    ∧ ∀ e ∈ r.effects, touchesVm a e = false := by
  cases st <;> cases ev <;>
    try exact Option.noConfusion hstep
  all_goals try exact absurd hcyc (by decide)
  all_goals try exact absurd hproc (by decide)
  all_goals try (injection hstep with hstep; subst hstep)
  case next.nextStep =>
    rcases hr : fsm.remaining with _ | ⟨u, rest⟩
    · exact ⟨by simp [state_next, hr, procState], by simp [state_next, hr],
        Or.inr (by simp [state_next, hr, quietState]), by simp [state_next, hr]⟩
    · have hmem := hrem
      rw [hr, List.mem_cons] at hmem
      obtain ⟨h1, h2⟩ := not_or.mp hmem
      refine ⟨by simp [state_next, hr, procState], ?_, Or.inl ?_,
        by simp [state_next, hr]⟩
      · simpa [state_next, hr] using h2
      · simp only [state_next, hr]
        exact fun hne => h1 hne.symm
  case checkLastVisited.lastVisitedResp i =>
    have hvm : ¬ (fsm.vmuuid = a) := hu.resolve_right (by decide)
    have hkey : (("vm:" ++ fsm.vmuuid) == ("vm:" ++ a)) = false :=
      beq_eq_false_iff_ne.mpr (vmKey_ne hvm)
    cases i with
    | timeout => exact ⟨rfl, hrem, Or.inl hvm,
        by simp [state_checkLastVisited, touchesVm, hkey]⟩
    | err => exact ⟨rfl, hrem, Or.inl hvm,
        by simp [state_checkLastVisited, touchesVm, hkey]⟩
    | ok now val =>
        refine ⟨?_, hrem, Or.inl hvm,
          by simp [state_checkLastVisited, touchesVm, hkey]⟩
        rcases val with _ | s
        · rfl
        · rcases hp : jsParseInt s with _ | lv
          · simp [state_checkLastVisited, hp, procState]
          · simp only [state_checkLastVisited, hp]
            split <;> rfl
  case checkReaped.reapedResp i =>
    have hvm : ¬ (fsm.vmuuid = a) := hu.resolve_right (by decide)
    have hkey : (("vm:" ++ fsm.vmuuid) == ("vm:" ++ a)) = false :=
      beq_eq_false_iff_ne.mpr (vmKey_ne hvm)
    cases i with
    | timeoutFirst => exact ⟨rfl, hrem, Or.inl hvm,
        by simp [state_checkReaped, touchesVm, hkey]⟩
    | errFirst => exact ⟨rfl, hrem, Or.inl hvm,
        by simp [state_checkReaped, touchesVm, hkey]⟩
    | okNotReaped => exact ⟨rfl, hrem, Or.inl hvm,
        by simp [state_checkReaped, touchesVm, hkey]⟩
    | reapedTimeoutSecond => exact ⟨rfl, hrem, Or.inl hvm,
        by simp [state_checkReaped, touchesVm, hkey]⟩
    | reapedErrSecond => exact ⟨rfl, hrem, Or.inl hvm,
        by simp [state_checkReaped, touchesVm, hkey]⟩
    | reapedOk val2 =>
        refine ⟨?_, hrem, Or.inl hvm, ?_⟩
        · simp only [state_checkReaped]
          split <;> rfl
        · simp only [state_checkReaped]
          split <;> simp [touchesVm, hkey]
  case fetchAndPush.fetchResp i =>
    have hvm : ¬ (fsm.vmuuid = a) := hu.resolve_right (by decide)
    have hkey : (("vm:" ++ fsm.vmuuid) == ("vm:" ++ a)) = false :=
      beq_eq_false_iff_ne.mpr (vmKey_ne hvm)
    have huu : (fsm.vmuuid == a) = false := beq_eq_false_iff_ne.mpr hvm
    cases i with
    | timeout => exact ⟨rfl, hrem, Or.inl hvm,
        by simp [state_fetchAndPush, touchesVm, huu]⟩
    | err => exact ⟨rfl, hrem, Or.inl hvm,
        by simp [state_fetchAndPush, touchesVm, huu]⟩
    | ok obj acc =>
        cases acc <;> cases hT : isTerminal (fetchResult obj) <;>
          exact ⟨by simp [state_fetchAndPush, hT, procState], hrem,
            Or.inr (by simp [state_fetchAndPush, hT, quietState]),
            by simp [state_fetchAndPush, hT, touchesVm, huu, hkey]⟩
  case sleep_full.sleepTimer =>
    exact ⟨rfl, hrem, Or.inr rfl, by simp [state_sleep_full]⟩
  case sleep_full.wakeAsserted =>
    exact ⟨rfl, hrem, Or.inr rfl, by simp [state_sleep_full]⟩
  case sleep.sleepTimer =>
    exact ⟨rfl, hrem, Or.inr rfl, by simp [state_sleep]⟩
  case sleep.wakeAsserted =>
    exact ⟨rfl, hrem, Or.inr rfl, by simp [state_sleep]⟩
  case checkError.checkErrorTimer =>
    have hvm : ¬ (fsm.vmuuid = a) := hu.resolve_right (by decide)
    refine ⟨?_, hrem, Or.inl hvm, by simp [state_checkError]⟩
    simp only [state_checkError]
    split <;> rfl

/-- Over any trace of cycle-internal events from a processing-phase
state, no effect touches the record of an id that is absent from the
worklist and (unless the state is quiet) different from the current
vm. -/
lemma run_no_retouch (a : String) :
    ∀ (evs : List Event) (st : StateName) (g : ReaperFSM),
      (∀ x ∈ evs, cycleEvent x = true) →
      procState st = true →
      a ∉ g.remaining →
      (¬ (g.vmuuid = a) ∨ quietState st = true) →
      ∀ e ∈ (run st g evs).2.2, touchesVm a e = false := by
  intro evs
  induction evs with
  | nil =>
      intro st g _ _ _ _ e he
      simp [run] at he
  | cons ev rest ih =>
      intro st g hcyc hproc hrem hu e he
      have hc1 : cycleEvent ev = true := hcyc ev (List.mem_cons_self ev rest)
      have hcr : ∀ x ∈ rest, cycleEvent x = true :=
        fun x hx => hcyc x (List.mem_cons_of_mem ev hx)
      cases hstep : step st g ev with
      | none =>
          simp only [run, hstep] at he
          exact ih st g hcr hproc hrem hu e he
      | some r =>
          obtain ⟨hp, hr2, hv, heff⟩ := step_no_retouch a st g ev r hstep hc1 hproc hrem hu
          simp only [run, hstep, List.mem_append] at he
          rcases he with he | he
          · exact heff e he
          · exact ih r.goto r.fsm hcr hp hr2 hv e he

/-- Claim C9, counterexample: with the id "a" duplicated on the worklist
(reachable after a mid-cycle scan error, claim C10), one single reap
cycle, running from next back to idle, first handles "a" with a rejected
(sink-full) push of a terminal fetch, then re-handles "a" later in the
same cycle, fetching it a second time and writing the reaped marker —
refuting both the "never writes the reaped marker ... in this cycle" and
the "only re-handled when a later cycle rediscovers it" clauses. -/
theorem claim_C9_cex :
    (run StateName.next { initFSM with remaining := ["a", "a"] }
       [Event.nextStep,
        Event.lastVisitedResp (CheckLVInput.ok 7200 (some "0")),
        Event.reapedResp CheckReapedInput.okNotReaped,
        Event.fetchResp (FetchInput.ok ⟨"destroyed", true, ""⟩ false)]).1
      = StateName.sleep_full
    ∧ (run StateName.next { initFSM with remaining := ["a", "a"] }
       [Event.nextStep,
        Event.lastVisitedResp (CheckLVInput.ok 7200 (some "0")),
        Event.reapedResp CheckReapedInput.okNotReaped,
        Event.fetchResp (FetchInput.ok ⟨"destroyed", true, ""⟩ false),
        Event.sleepTimer,
        Event.nextStep,
        Event.lastVisitedResp (CheckLVInput.ok 7200 (some "0")),
        Event.reapedResp CheckReapedInput.okNotReaped,
        Event.fetchResp (FetchInput.ok ⟨"destroyed", true, ""⟩ true),
        Event.sleepTimer,
        Event.nextStep]).1 = StateName.idle
    ∧ Effect.hset "vm:a" "reaped" "yes"
        ∈ (run StateName.next { initFSM with remaining := ["a", "a"] }
       [Event.nextStep,
        Event.lastVisitedResp (CheckLVInput.ok 7200 (some "0")),
        Event.reapedResp CheckReapedInput.okNotReaped,
        Event.fetchResp (FetchInput.ok ⟨"destroyed", true, ""⟩ false),
        Event.sleepTimer,
        Event.nextStep,
        Event.lastVisitedResp (CheckLVInput.ok 7200 (some "0")),
        Event.reapedResp CheckReapedInput.okNotReaped,
        Event.fetchResp (FetchInput.ok ⟨"destroyed", true, ""⟩ true),
        Event.sleepTimer,
        Event.nextStep]).2.2
    ∧ countFetches (run StateName.next { initFSM with remaining := ["a", "a"] }
       [Event.nextStep,
        Event.lastVisitedResp (CheckLVInput.ok 7200 (some "0")),
        Event.reapedResp CheckReapedInput.okNotReaped,
        Event.fetchResp (FetchInput.ok ⟨"destroyed", true, ""⟩ false),
        Event.sleepTimer,
        Event.nextStep,
        Event.lastVisitedResp (CheckLVInput.ok 7200 (some "0")),
        Event.reapedResp CheckReapedInput.okNotReaped,
        Event.fetchResp (FetchInput.ok ⟨"destroyed", true, ""⟩ true),
        Event.sleepTimer,
        Event.nextStep]).2.2 = 2 := by decide

/-- Claim C9 (amended): when stream.push returns false in fetchAndPush
the machine performs the one fetch and the one push but no store
mutation at all (in particular no reaped marker even for a terminal
state, since obj is arbitrary here), leaves the machine fields
unchanged, and goes to sleep_full; from sleep_full both the timer and a
wake lead to next, whose entry never re-enqueues the current vm (the
worklist only shrinks); and for the remainder of the cycle (any trace of
cycle-internal events from sleep_full) no effect reads, mutates or
fetches a resource whose id does not occur on the worklist again — so
the resource is re-handled within the same cycle only when its id was
already duplicated on the worklist, and otherwise only when a later
cycle rediscovers it. -/
theorem claim_C9 (fsm : ReaperFSM) (obj : VMObj) :
    run StateName.fetchAndPush fsm [Event.fetchResp (FetchInput.ok obj false)]
      = (StateName.sleep_full, fsm,
         [Effect.fetch fsm.vmuuid, Effect.push (fetchResult obj)])
    ∧ (state_sleep_full fsm SleepInput.timerFired).goto = StateName.next
    ∧ (state_sleep_full fsm SleepInput.wake).goto = StateName.next
    ∧ (state_next fsm).fsm.remaining = fsm.remaining.tail
    ∧ (∀ (evs : List Event) (g : ReaperFSM) (a : String),
        (∀ x ∈ evs, cycleEvent x = true) →
        a ∉ g.remaining →
        ∀ e ∈ (run StateName.sleep_full g evs).2.2, touchesVm a e = false) := by
  refine ⟨?_, rfl, rfl, ?_, ?_⟩
  · simp [run, step, state_fetchAndPush]
  · rcases hr : fsm.remaining with _ | ⟨u, rest⟩ <;> simp [state_next, hr]
  · intro evs g a hcyc hrem
    exact run_no_retouch a evs StateName.sleep_full g hcyc rfl hrem (Or.inr rfl)

/-- Claim C9, witness: from sleep_full with vm "a" just handled and only
"b" left on the worklist, the rest of the cycle (timer, next, and the
read for "b") never touches the record of "a". -/
theorem claim_C9_witness :
    touchesVm "a" (Effect.hget ("vm:" ++ "b") "last_visit") = false :=
  (claim_C9 initFSM ⟨"x", false, ""⟩).2.2.2.2
    [Event.sleepTimer, Event.nextStep,
     Event.lastVisitedResp (CheckLVInput.ok 7200 (some "0"))]
    { initFSM with vmuuid := "a", remaining := ["b"] } "a"
    (by decide) (by decide)
    (Effect.hget ("vm:" ++ "b") "last_visit") (by decide)

/-- Claim C1, counterexample: a stale vm with no reaped marker, whose
fetched state is terminal, is fetched once and pushed once, but because
the push returned false (sink full) NO reaped marker is written, so the
claimed "writes reaped iff the fetched state is terminal" fails on this
cycle. -/
theorem claim_C1_cex :
    countFetches (run StateName.checkLastVisited { initFSM with vmuuid := "a" }
        [Event.lastVisitedResp (CheckLVInput.ok 7200 (some "0")),
         Event.reapedResp CheckReapedInput.okNotReaped,
         Event.fetchResp (FetchInput.ok ⟨"destroyed", true, ""⟩ false)]).2.2 = 1
    ∧ countPushes (run StateName.checkLastVisited { initFSM with vmuuid := "a" }
        [Event.lastVisitedResp (CheckLVInput.ok 7200 (some "0")),
         Event.reapedResp CheckReapedInput.okNotReaped,
         Event.fetchResp (FetchInput.ok ⟨"destroyed", true, ""⟩ false)]).2.2 = 1
    ∧ isTerminal (fetchResult ⟨"destroyed", true, ""⟩) = true
    ∧ Effect.hset "vm:a" "reaped" "yes"
        ∉ (run StateName.checkLastVisited { initFSM with vmuuid := "a" }
        [Event.lastVisitedResp (CheckLVInput.ok 7200 (some "0")),
         Event.reapedResp CheckReapedInput.okNotReaped,
         Event.fetchResp (FetchInput.ok ⟨"destroyed", true, ""⟩ false)]).2.2
    ∧ (run StateName.checkLastVisited { initFSM with vmuuid := "a" }
        [Event.lastVisitedResp (CheckLVInput.ok 7200 (some "0")),
         Event.reapedResp CheckReapedInput.okNotReaped,
         Event.fetchResp (FetchInput.ok ⟨"destroyed", true, ""⟩ false)]).1
        = StateName.sleep_full := by decide

/-- Claim C1, amended: for a resource with now minus last_visit greater
than reapTime and no reaped marker, a cycle that observes it and whose
store reads and fetch succeed performs exactly one fetch followed by
exactly one push; when the push is accepted it writes reaped = "yes" to
the record of the resource if and only if the fetched state is terminal
(state destroyed, failed, incomplete, or the destroyed flag). -/
theorem claim_C1_thm (fsm : ReaperFSM) (now lv : Int) (s : String) (obj : VMObj)
    (hjs : jsParseInt s = some lv)
    (hgt : (((now - lv : Int) : ℚ) > fsm.reapTime)) :
    run StateName.checkLastVisited fsm
        [Event.lastVisitedResp (CheckLVInput.ok now (some s)),
         Event.reapedResp CheckReapedInput.okNotReaped,
         Event.fetchResp (FetchInput.ok obj true)]
      = (StateName.sleep, fsm,
         [Effect.hget ("vm:" ++ fsm.vmuuid) "last_visit",
          Effect.hget ("vm:" ++ fsm.vmuuid) "reaped",
          Effect.fetch fsm.vmuuid, Effect.push (fetchResult obj)]
         ++ (if isTerminal (fetchResult obj)
              then [Effect.hset ("vm:" ++ fsm.vmuuid) "reaped" "yes"] else []))
    ∧ countFetches (run StateName.checkLastVisited fsm
        [Event.lastVisitedResp (CheckLVInput.ok now (some s)),
         Event.reapedResp CheckReapedInput.okNotReaped,
         Event.fetchResp (FetchInput.ok obj true)]).2.2 = 1
    ∧ countPushes (run StateName.checkLastVisited fsm
        [Event.lastVisitedResp (CheckLVInput.ok now (some s)),
         Event.reapedResp CheckReapedInput.okNotReaped,
         Event.fetchResp (FetchInput.ok obj true)]).2.2 = 1
    ∧ (Effect.hset ("vm:" ++ fsm.vmuuid) "reaped" "yes"
        ∈ (run StateName.checkLastVisited fsm
        [Event.lastVisitedResp (CheckLVInput.ok now (some s)),
         Event.reapedResp CheckReapedInput.okNotReaped,
         Event.fetchResp (FetchInput.ok obj true)]).2.2
        ↔ isTerminal (fetchResult obj) = true) := by
  have hgt2 : fsm.reapTime < (now : ℚ) - (lv : ℚ) := by push_cast at hgt; linarith
  cases hT : isTerminal (fetchResult obj) <;>
    simp [run, step, state_checkLastVisited, state_checkReaped, state_fetchAndPush,
      hjs, hgt2, hT, countFetches, countPushes, isFetchEff, isPushEff]

/-- Claim C1, witness: concrete instance of the amended theorem (vm "a",
last_visit 0 read at time 7200, reapTime 3600, non-terminal fetch, push
accepted). -/
theorem claim_C1_witness :
    countFetches ((run StateName.checkLastVisited { initFSM with vmuuid := "a" }
        [Event.lastVisitedResp (CheckLVInput.ok 7200 (some "0")),
         Event.reapedResp CheckReapedInput.okNotReaped,
         Event.fetchResp (FetchInput.ok ⟨"running", false, ""⟩ true)]).2.2) = 1 :=
  (claim_C1_thm { initFSM with vmuuid := "a" } 7200 0 "0" ⟨"running", false, ""⟩
      (by decide) (by norm_num [initFSM])).2.1

/-- Claim C2: for a stale resource already marked reaped, if last_recs is
absent or the empty object the record key is deleted, the machine goes to
next and no fetch or push happens for it; if last_recs is non-empty the
resource is fetched and pushed again (whatever the push returns) and its
key is never deleted. -/
theorem claim_C2 (fsm : ReaperFSM) (v2 : Option String) (s : String) (obj : VMObj)
    (acc : Bool) :
    ((v2 = none ∨ v2 = some "\x7b\x7d") →
      run StateName.checkReaped fsm [Event.reapedResp (CheckReapedInput.reapedOk v2)]
        = (StateName.next, fsm,
           [Effect.hget ("vm:" ++ fsm.vmuuid) "reaped",
            Effect.hget ("vm:" ++ fsm.vmuuid) "last_recs",
            Effect.del ("vm:" ++ fsm.vmuuid)])
      ∧ countFetches (run StateName.checkReaped fsm
          [Event.reapedResp (CheckReapedInput.reapedOk v2)]).2.2 = 0
      ∧ countPushes (run StateName.checkReaped fsm
          [Event.reapedResp (CheckReapedInput.reapedOk v2)]).2.2 = 0)
    ∧ (¬ (s = "\x7b\x7d") →
      countFetches (run StateName.checkReaped fsm
          [Event.reapedResp (CheckReapedInput.reapedOk (some s)),
           Event.fetchResp (FetchInput.ok obj acc)]).2.2 = 1
      ∧ countPushes (run StateName.checkReaped fsm
          [Event.reapedResp (CheckReapedInput.reapedOk (some s)),
           Event.fetchResp (FetchInput.ok obj acc)]).2.2 = 1
      ∧ ∀ k, Effect.del k ∉ (run StateName.checkReaped fsm
          [Event.reapedResp (CheckReapedInput.reapedOk (some s)),
           Event.fetchResp (FetchInput.ok obj acc)]).2.2) := by
  constructor
  · rintro (rfl | rfl) <;>
      simp [run, step, state_checkReaped, countFetches, countPushes,
        isFetchEff, isPushEff]
  · intro hs
    cases acc <;> cases hT : isTerminal (fetchResult obj) <;>
      simp [run, step, state_checkReaped, state_fetchAndPush, hs, hT,
        countFetches, countPushes, isFetchEff, isPushEff]

/-- Claim C2, witness: concrete instances of both branches (vm "b",
last_recs absent gives deletion; last_recs "x" gives a refetch). -/
theorem claim_C2_witness :
    run StateName.checkReaped { initFSM with vmuuid := "b" }
        [Event.reapedResp (CheckReapedInput.reapedOk none)]
      = (StateName.next, { initFSM with vmuuid := "b" },
         [Effect.hget "vm:b" "reaped", Effect.hget "vm:b" "last_recs",
          Effect.del "vm:b"])
    ∧ countFetches (run StateName.checkReaped { initFSM with vmuuid := "b" }
        [Event.reapedResp (CheckReapedInput.reapedOk (some "x")),
         Event.fetchResp (FetchInput.ok ⟨"running", false, ""⟩ true)]).2.2 = 1 := by
  exact ⟨((claim_C2 { initFSM with vmuuid := "b" } none "x" ⟨"running", false, ""⟩
      true).1 (Or.inl rfl)).1,
    ((claim_C2 { initFSM with vmuuid := "b" } none "x" ⟨"running", false, ""⟩
      true).2 (by decide)).1⟩

/-- Claim C4: a resource whose last_visit satisfies now minus last_visit
at most reapTime causes no fetch, no push and no store mutation: the only
effect is the last_visit read and the machine goes directly from
checkLastVisited to next with its fields unchanged. -/
theorem claim_C4 (fsm : ReaperFSM) (now lv : Int) (s : String)
    (hjs : jsParseInt s = some lv)
    (hle : (((now - lv : Int) : ℚ) ≤ fsm.reapTime)) :
    run StateName.checkLastVisited fsm
        [Event.lastVisitedResp (CheckLVInput.ok now (some s))]
      = (StateName.next, fsm, [Effect.hget ("vm:" ++ fsm.vmuuid) "last_visit"])
    ∧ countFetches (run StateName.checkLastVisited fsm
        [Event.lastVisitedResp (CheckLVInput.ok now (some s))]).2.2 = 0
    ∧ countPushes (run StateName.checkLastVisited fsm
        [Event.lastVisitedResp (CheckLVInput.ok now (some s))]).2.2 = 0 := by
  have hngt : ¬ (fsm.reapTime < (now : ℚ) - (lv : ℚ)) := by
    push_cast at hle; linarith
  simp [run, step, state_checkLastVisited, hjs, hngt,
    countFetches, countPushes, isFetchEff, isPushEff]

/-- Claim C4, witness: concrete fresh resource (vm "a", last_visit 50
read at time 100, reapTime 3600). -/
theorem claim_C4_witness :
    run StateName.checkLastVisited { initFSM with vmuuid := "a" }
        [Event.lastVisitedResp (CheckLVInput.ok 100 (some "50"))]
      = (StateName.next, { initFSM with vmuuid := "a" },
         [Effect.hget "vm:a" "last_visit"]) :=
  (claim_C4 { initFSM with vmuuid := "a" } 100 50 "50"
    (by decide) (by norm_num [initFSM])).1

/-- Powers of two are at least one over the rationals. -/
lemma one_le_two_pow (n : ℕ) : (1 : ℚ) ≤ 2 ^ n := by
  induction n with
  | zero => norm_num
  | succ k ih => rw [pow_succ]; linarith

/-- Every valid step either leaves the sleep throttle (and its bounds)
untouched, or applies the sleep_full doubling update, or applies the
sleep halving update. -/
lemma step_sleep_cases (st : StateName) (fsm : ReaperFSM) (ev : Event) (r : StepResult)
    (h : step st fsm ev = some r) :
    (r.fsm.sleep = fsm.sleep ∧ r.fsm.minSleep = fsm.minSleep ∧
      r.fsm.maxSleep = fsm.maxSleep)
    ∨ r.fsm = { fsm with sleep :=
        if fsm.sleep * 2 > fsm.maxSleep then fsm.maxSleep else fsm.sleep * 2 }
    ∨ r.fsm = { fsm with sleep :=
        if fsm.sleep / 2 < fsm.minSleep then fsm.minSleep else fsm.sleep / 2 } := by
  cases st <;> cases ev <;>
    try exact Option.noConfusion h
  all_goals try (injection h with h; subst h)
  case idle.reapTimer =>
    by_cases ht : fsm.onTimer
    · have h2 : state_idle fsm = r := by
        have h3 : some (state_idle fsm) = some r := by simpa [step, ht] using h
        injection h3
      subst h2
      exact Or.inl ⟨rfl, rfl, rfl⟩
    · exact absurd h (by simp [step, ht])
  case idle.startAsserted => exact Or.inl ⟨rfl, rfl, rfl⟩
  case listVms.scanResp i =>
    cases i <;> exact Or.inl ⟨rfl, rfl, rfl⟩
  case listError.listErrorTimer => exact Or.inl ⟨rfl, rfl, rfl⟩
  case next.nextStep =>
    rcases hrem : fsm.remaining with _ | ⟨u, rest⟩ <;>
      exact Or.inl (by simp [state_next, hrem])
  case checkLastVisited.lastVisitedResp i =>
    cases i <;> exact Or.inl ⟨rfl, rfl, rfl⟩
  case checkReaped.reapedResp i =>
    cases i <;> exact Or.inl ⟨rfl, rfl, rfl⟩
  case fetchAndPush.fetchResp i =>
    cases i <;> exact Or.inl ⟨rfl, rfl, rfl⟩
  case sleep_full.sleepTimer => exact Or.inr (Or.inl rfl)
  case sleep_full.wakeAsserted => exact Or.inl ⟨rfl, rfl, rfl⟩
  case sleep.sleepTimer => exact Or.inl ⟨rfl, rfl, rfl⟩
  case sleep.wakeAsserted => exact Or.inr (Or.inr rfl)
  case checkError.checkErrorTimer => exact Or.inl ⟨rfl, rfl, rfl⟩

/-- A valid step keeps the throttle within the bounds. -/
lemma step_sleep_bounds (st : StateName) (fsm : ReaperFSM) (ev : Event) (r : StepResult)
    (h : step st fsm ev = some r)
    (h0 : 0 ≤ fsm.minSleep) (h1 : fsm.minSleep ≤ fsm.maxSleep)
    (h2 : fsm.minSleep ≤ fsm.sleep) (h3 : fsm.sleep ≤ fsm.maxSleep) :
    r.fsm.minSleep ≤ r.fsm.sleep ∧ r.fsm.sleep ≤ r.fsm.maxSleep := by
  rcases step_sleep_cases st fsm ev r h with ⟨e1, e2, e3⟩ | he | he
  · rw [e1, e2, e3]; exact ⟨h2, h3⟩
  · rw [he]; constructor <;> dsimp <;> split <;> linarith
  · rw [he]; constructor <;> dsimp <;> split <;> linarith

/-- N consecutive sleep_full timer expiries drive the throttle to
min(initial * 2^N, maxSleep). -/
lemma sleep_full_iterate (N : ℕ) :
    ∀ fsm : ReaperFSM, 0 ≤ fsm.maxSleep → fsm.sleep ≤ fsm.maxSleep →
      ((fun f => (state_sleep_full f SleepInput.timerFired).fsm)^[N] fsm).sleep
        = min (fsm.sleep * 2 ^ N) fsm.maxSleep := by
  induction N with
  | zero =>
      intro fsm h0 h1
      simpa using (min_eq_left h1).symm
  | succ n ih =>
      intro fsm h0 h1
      rw [Function.iterate_succ_apply]
      have hle : (state_sleep_full fsm SleepInput.timerFired).fsm.sleep
          ≤ (state_sleep_full fsm SleepInput.timerFired).fsm.maxSleep := by
        dsimp [state_sleep_full]; split <;> linarith
      have h0' : (0 : ℚ) ≤ (state_sleep_full fsm SleepInput.timerFired).fsm.maxSleep := h0
      rw [ih ((state_sleep_full fsm SleepInput.timerFired).fsm) h0' hle]
      show min ((if fsm.sleep * 2 > fsm.maxSleep then fsm.maxSleep else fsm.sleep * 2)
          * 2 ^ n) fsm.maxSleep = min (fsm.sleep * 2 ^ (n + 1)) fsm.maxSleep
      rcases le_or_lt (fsm.sleep * 2) fsm.maxSleep with hc | hc
      · rw [if_neg (not_lt.mpr hc)]
        congr 1
        ring
      · rw [if_pos hc]
        have e1 : min (fsm.maxSleep * 2 ^ n) fsm.maxSleep = fsm.maxSleep :=
          min_eq_right (le_mul_of_one_le_right h0 (one_le_two_pow n))
        have e2 : fsm.maxSleep ≤ fsm.sleep * 2 ^ (n + 1) := by
          calc fsm.maxSleep ≤ fsm.sleep * 2 := le_of_lt hc
          _ ≤ fsm.sleep * 2 * 2 ^ n :=
              le_mul_of_one_le_right (by linarith) (one_le_two_pow n)
          _ = fsm.sleep * 2 ^ (n + 1) := by ring
        rw [e1, min_eq_right e2]

/-- N wake signals during the non-full sleep state drive the throttle to
max(initial / 2^N, minSleep). -/
lemma sleep_wake_iterate (N : ℕ) :
    ∀ fsm : ReaperFSM, 0 ≤ fsm.minSleep → fsm.minSleep ≤ fsm.sleep →
      ((fun f => (state_sleep f SleepInput.wake).fsm)^[N] fsm).sleep
        = max (fsm.sleep / 2 ^ N) fsm.minSleep := by
  induction N with
  | zero =>
      intro fsm h0 h1
      simpa using (max_eq_left h1).symm
  | succ n ih =>
      intro fsm h0 h1
      rw [Function.iterate_succ_apply]
      have h1' : (state_sleep fsm SleepInput.wake).fsm.minSleep
          ≤ (state_sleep fsm SleepInput.wake).fsm.sleep := by
        dsimp [state_sleep]; split <;> linarith
      have h0' : (0 : ℚ) ≤ (state_sleep fsm SleepInput.wake).fsm.minSleep := h0
      rw [ih ((state_sleep fsm SleepInput.wake).fsm) h0' h1']
      show max ((if fsm.sleep / 2 < fsm.minSleep then fsm.minSleep else fsm.sleep / 2)
          / 2 ^ n) fsm.minSleep = max (fsm.sleep / 2 ^ (n + 1)) fsm.minSleep
      have hs0 : 0 ≤ fsm.sleep := le_trans h0 h1
      have hdd : fsm.sleep / 2 / 2 ^ n = fsm.sleep / 2 ^ (n + 1) := by
        rw [div_div, pow_succ, mul_comm]
      rcases lt_or_le (fsm.sleep / 2) fsm.minSleep with hc | hc
      · rw [if_pos hc]
        have e1 : max (fsm.minSleep / 2 ^ n) fsm.minSleep = fsm.minSleep :=
          max_eq_right (div_le_self h0 (one_le_two_pow n))
        have e2 : fsm.sleep / 2 ^ (n + 1) ≤ fsm.minSleep := by
          rw [← hdd]
          exact le_of_lt (lt_of_le_of_lt
            (div_le_self (div_nonneg hs0 (by norm_num)) (one_le_two_pow n)) hc)
        rw [e1, max_eq_right e2]
      · rw [if_neg (not_lt.mpr hc)]
        rw [hdd]

/-- Claim C5: the throttle stays within [minSleep, maxSleep] across every
valid step; N consecutive sleep_full timer expiries with no wake drive it
to min(initial * 2^N, maxSleep); N wake signals in the non-full sleep
state drive it to max(initial / 2^N, minSleep); and entering idle never
resets it, so it persists across reap cycles. -/
theorem claim_C5 :
    (∀ (st : StateName) (fsm : ReaperFSM) (ev : Event) (r : StepResult),
        step st fsm ev = some r →
        0 ≤ fsm.minSleep → fsm.minSleep ≤ fsm.maxSleep →
        fsm.minSleep ≤ fsm.sleep → fsm.sleep ≤ fsm.maxSleep →
        r.fsm.minSleep ≤ r.fsm.sleep ∧ r.fsm.sleep ≤ r.fsm.maxSleep)
    ∧ (∀ (fsm : ReaperFSM) (N : ℕ),
        0 ≤ fsm.maxSleep → fsm.sleep ≤ fsm.maxSleep →
        ((fun f => (state_sleep_full f SleepInput.timerFired).fsm)^[N] fsm).sleep
          = min (fsm.sleep * 2 ^ N) fsm.maxSleep)
    ∧ (∀ (fsm : ReaperFSM) (N : ℕ),
        0 ≤ fsm.minSleep → fsm.minSleep ≤ fsm.sleep →
        ((fun f => (state_sleep f SleepInput.wake).fsm)^[N] fsm).sleep
          = max (fsm.sleep / 2 ^ N) fsm.minSleep)
    ∧ (∀ fsm : ReaperFSM, (state_idle fsm).fsm.sleep = fsm.sleep) :=
  ⟨fun st fsm ev r h h0 h1 h2 h3 => step_sleep_bounds st fsm ev r h h0 h1 h2 h3,
   fun fsm N h0 h1 => sleep_full_iterate N fsm h0 h1,
   fun fsm N h0 h1 => sleep_wake_iterate N fsm h0 h1,
   fun _ => rfl⟩

/-- Claim C5, witness: seven consecutive full-sink backoffs from the
initial machine reach the cap (min(100 * 128, 10000) = 10000). -/
theorem claim_C5_witness :
    ((fun f => (state_sleep_full f SleepInput.timerFired).fsm)^[7] initFSM).sleep
      = min (initFSM.sleep * 2 ^ 7) initFSM.maxSleep :=
  claim_C5.2.1 initFSM 7 (by norm_num [initFSM]) (by norm_num [initFSM])

/-- Claim C6: the retry budget: state next resets retries to 3 whenever
it selects a resource; state checkError decrements it and, while the
result stays positive, retries the same vm from checkLastVisited, else
skips to next; a vm whose check operations fail twice and then succeed is
still fully processed (one fetch, one push, ending in sleep) in the same
cycle, while three consecutive failures skip it to next with only the
three reads performed (no deletion, no push). -/
theorem claim_C6 (fsm : ReaperFSM) (now lv : Int) (s : String) (obj : VMObj)
    (h3 : fsm.retries = 3)
    (hjs : jsParseInt s = some lv)
    (hgt : (((now - lv : Int) : ℚ) > fsm.reapTime)) :
    (∀ g : ReaperFSM, (state_next g).fsm.retries = 3)
    ∧ (∀ g : ReaperFSM, (state_checkError g).fsm.retries = g.retries - 1
        ∧ (state_checkError g).fsm.vmuuid = g.vmuuid
        ∧ (g.retries - 1 > 0 →
            (state_checkError g).goto = StateName.checkLastVisited)
        ∧ (¬ (g.retries - 1 > 0) → (state_checkError g).goto = StateName.next))
    ∧ (run StateName.checkLastVisited fsm
        [Event.lastVisitedResp CheckLVInput.err, Event.checkErrorTimer,
         Event.lastVisitedResp CheckLVInput.timeout, Event.checkErrorTimer,
         Event.lastVisitedResp (CheckLVInput.ok now (some s)),
         Event.reapedResp CheckReapedInput.okNotReaped,
         Event.fetchResp (FetchInput.ok obj true)]).1 = StateName.sleep
    ∧ countFetches (run StateName.checkLastVisited fsm
        [Event.lastVisitedResp CheckLVInput.err, Event.checkErrorTimer,
         Event.lastVisitedResp CheckLVInput.timeout, Event.checkErrorTimer,
         Event.lastVisitedResp (CheckLVInput.ok now (some s)),
         Event.reapedResp CheckReapedInput.okNotReaped,
         Event.fetchResp (FetchInput.ok obj true)]).2.2 = 1
    ∧ countPushes (run StateName.checkLastVisited fsm
        [Event.lastVisitedResp CheckLVInput.err, Event.checkErrorTimer,
         Event.lastVisitedResp CheckLVInput.timeout, Event.checkErrorTimer,
         Event.lastVisitedResp (CheckLVInput.ok now (some s)),
         Event.reapedResp CheckReapedInput.okNotReaped,
         Event.fetchResp (FetchInput.ok obj true)]).2.2 = 1
    ∧ (run StateName.checkLastVisited fsm
        [Event.lastVisitedResp CheckLVInput.err, Event.checkErrorTimer,
         Event.lastVisitedResp CheckLVInput.err, Event.checkErrorTimer,
         Event.lastVisitedResp CheckLVInput.err, Event.checkErrorTimer]).1
        = StateName.next
    ∧ (run StateName.checkLastVisited fsm
        [Event.lastVisitedResp CheckLVInput.err, Event.checkErrorTimer,
         Event.lastVisitedResp CheckLVInput.err, Event.checkErrorTimer,
         Event.lastVisitedResp CheckLVInput.err, Event.checkErrorTimer]).2.1.retries = 0
    ∧ (run StateName.checkLastVisited fsm
        [Event.lastVisitedResp CheckLVInput.err, Event.checkErrorTimer,
         Event.lastVisitedResp CheckLVInput.err, Event.checkErrorTimer,
         Event.lastVisitedResp CheckLVInput.err, Event.checkErrorTimer]).2.1.vmuuid
        = fsm.vmuuid
    ∧ (run StateName.checkLastVisited fsm
        [Event.lastVisitedResp CheckLVInput.err, Event.checkErrorTimer,
         Event.lastVisitedResp CheckLVInput.err, Event.checkErrorTimer,
         Event.lastVisitedResp CheckLVInput.err, Event.checkErrorTimer]).2.2
        = [Effect.hget ("vm:" ++ fsm.vmuuid) "last_visit",
           Effect.hget ("vm:" ++ fsm.vmuuid) "last_visit",
           Effect.hget ("vm:" ++ fsm.vmuuid) "last_visit"] := by
  have hgt2 : fsm.reapTime < (now : ℚ) - (lv : ℚ) := by push_cast at hgt; linarith
  refine ⟨fun g => ?_, fun g => ⟨rfl, rfl, fun h => ?_, fun h => ?_⟩, ?_⟩
  · rcases hr : g.remaining with _ | ⟨u, rest⟩ <;> simp [state_next, hr]
  · simp [state_checkError, h]
  · simp [state_checkError, h]
  cases hT : isTerminal (fetchResult obj) <;>
    refine ⟨?_, ?_, ?_, ?_, ?_, ?_, ?_⟩ <;>
    simp [run, step, state_checkLastVisited, state_checkReaped, state_fetchAndPush,
      state_checkError, h3, hjs, hgt2, hT, countFetches, countPushes,
      isFetchEff, isPushEff]

/-- Claim C6, witness: concrete instance (vm "a", two failed reads then a
successful stale read at time 7200, non-terminal fetch, push accepted),
still yielding exactly one fetch in the cycle. -/
theorem claim_C6_witness :
    countFetches (run StateName.checkLastVisited { initFSM with vmuuid := "a" }
        [Event.lastVisitedResp CheckLVInput.err, Event.checkErrorTimer,
         Event.lastVisitedResp CheckLVInput.timeout, Event.checkErrorTimer,
         Event.lastVisitedResp (CheckLVInput.ok 7200 (some "0")),
         Event.reapedResp CheckReapedInput.okNotReaped,
         Event.fetchResp (FetchInput.ok ⟨"running", false, ""⟩ true)]).2.2 = 1 :=
  (claim_C6 { initFSM with vmuuid := "a" } 7200 0 "0" ⟨"running", false, ""⟩
      rfl (by decide) (by norm_num [initFSM])).2.2.2.1

/-- Claim C10: a scan error (state listError) resets the cursor to "0"
but keeps the worklist, so after the retry re-enumerates the keyspace
every id collected before the failure is on the worklist at least twice,
and a vm with a duplicated id is selected (hence checked) twice within
the same reap cycle. -/
theorem claim_C10 (fsm : ReaperFSM) (c : String) (keys1 keys2 : List String)
    (hrem : fsm.remaining = []) (hc : ¬ (c = "0")) :
    (∀ g : ReaperFSM, (state_listError g).fsm.remaining = g.remaining
        ∧ (state_listError g).fsm.listCursor = "0")
    ∧ (run StateName.listVms fsm
        [Event.scanResp (ListVmsInput.ok c keys1),
         Event.scanResp ListVmsInput.err,
         Event.listErrorTimer,
         Event.scanResp (ListVmsInput.ok "0" keys2)]).2.1.remaining
        = keys1.filterMap vmKeyId ++ keys2.filterMap vmKeyId
    ∧ (run StateName.listVms fsm
        [Event.scanResp (ListVmsInput.ok c keys1),
         Event.scanResp ListVmsInput.err,
         Event.listErrorTimer,
         Event.scanResp (ListVmsInput.ok "0" keys2)]).1 = StateName.next
    ∧ (∀ a : String, a ∈ keys1.filterMap vmKeyId → a ∈ keys2.filterMap vmKeyId →
        2 ≤ (keys1.filterMap vmKeyId ++ keys2.filterMap vmKeyId).count a)
    ∧ (∀ (g : ReaperFSM) (a : String), g.remaining = [a, a] →
        (state_next g).fsm.vmuuid = a
        ∧ (state_next (state_next g).fsm).fsm.vmuuid = a) := by
  refine ⟨fun g => ⟨rfl, rfl⟩, ?_, ?_, ?_, ?_⟩
  · simp [run, step, state_listVms, state_listError, hrem, hc]
  · simp [run, step, state_listVms, state_listError, hrem, hc]
  · intro a h1 h2
    rw [List.count_append]
    have c1 : 0 < (keys1.filterMap vmKeyId).count a := List.count_pos_iff.mpr h1
    have c2 : 0 < (keys2.filterMap vmKeyId).count a := List.count_pos_iff.mpr h2
    omega
  · intro g a hga
    constructor <;> simp [state_next, hga]

/-- Claim C10, witness: a one-page scan of vm:a, a failure, then a full
rescan returning vm:a and vm:b leaves "a" on the worklist twice. -/
theorem claim_C10_witness :
    2 ≤ ((["vm:a"].filterMap vmKeyId ++ ["vm:a", "vm:b"].filterMap vmKeyId).count "a") :=
  (claim_C10 initFSM "1" ["vm:a"] ["vm:a", "vm:b"] rfl (by decide)).2.2.2.1 "a"
    (by decide) (by decide)

end ReaperModel
